import Mathlib

/-!
Verification development for the agent run-loop backend.

The definitions below are a shallow embedding of two source files:

* `backend/agent/run.py` — the `AgentRunner.run` iteration loop, its
  streaming-chunk interpreter, and `AgentRunner.get_max_tokens`;
* `backend/agent/utils.py` — `stop_agent_run`,
  `_cleanup_redis_response_list`, and `check_agent_run_limit`.

Python dictionaries flowing through the stream are embedded as a `Chunk`
structure whose fields record the results of the dictionary lookups and
JSON parses the source performs (an `Option` is `none` where the source's
lookup misses, the value is falsy, or the surrounding `try` block swallows
a parse error).  External collaborators (billing check, latest-message
query, the completion engine `run_thread`, Redis, the durable record
store) are embedded as per-iteration environment inputs.
-/

/-- Substring occurrence on character lists: `containsSub needle hay` is
true when `needle` occurs contiguously inside `hay`.  Together with
`strContains` this models Python's `in` operator on strings, which the
source uses for the sentinel closing-tag scan and for model-name tests. -/
def containsSub (needle : List Char) : List Char → Bool
  | [] => needle.isPrefixOf []
  | c :: rest => needle.isPrefixOf (c :: rest) || containsSub needle rest

/-- Python's `pattern in s` on strings. -/
def strContains (s pattern : String) : Bool :=
  containsSub pattern.data s.data

/-- Python's `str.lower()` restricted to the ASCII model names the source
compares against (run.py, `get_max_tokens`). -/
def lowerString (s : String) : String :=
  String.mk (s.data.map Char.toLower)

/-- One streamed chunk as consumed by the loop body of `AgentRunner.run`
(run.py lines 616-669).  Fields record the source's dictionary lookups:
`ctype` is `chunk.get('type')`, `cstatus` is `chunk.get('status')`,
`metaTerminate` is true when the chunk's metadata parses and its
`agent_should_terminate` entry is truthy, `functionName`/`xmlTagName` are
the truthy `function_name`/`xml_tag_name` entries of the parsed content
(`none` when missing, falsy, or the content fails to parse), `hasContent`
is `'content' in chunk`, `contentText` is the assistant text when the
content parses to a dict whose `content` entry is a string (`none`
otherwise, in which case the source's `except` clauses skip the scan),
and `message` is the `message` entry of synthesized status chunks. -/
structure Chunk where
  ctype : String
  cstatus : Option String
  metaTerminate : Bool
  functionName : Option String
  xmlTagName : Option String
  hasContent : Bool
  contentText : Option String
  message : Option String
deriving DecidableEq

/-- The interpreter state threaded through one turn's chunk stream
(run.py lines 609-612): `last_tool_call`, `agent_should_terminate`,
`error_detected`, `full_response`, plus the ordered list of chunks the
generator has yielded to its consumer. -/
structure StreamState where
  lastToolCall : Option String
  agentShouldTerminate : Bool
  errorDetected : Bool
  fullResponse : String
  forwarded : List Chunk
deriving DecidableEq

/-- Initial interpreter state of each iteration (run.py lines 609-612). -/
def initStream : StreamState :=
  ⟨none, false, false, "", []⟩

/-- The status-chunk metadata path (run.py lines 622-641): a status-type
chunk whose metadata carries a truthy `agent_should_terminate` sets the
termination flag and records the terminating tool from the chunk content's
`function_name`, else its `xml_tag_name`. -/
def applyStatusMeta (st : StreamState) (c : Chunk) : StreamState :=
  if c.ctype = "status" then
    if c.metaTerminate then
      { st with
        agentShouldTerminate := true,
        lastToolCall :=
          match c.functionName with
          | some fn => some fn
          | none =>
            match c.xmlTagName with
            | some tn => some tn
            | none => st.lastToolCall }
    else st
  else st

/-- The sentinel closing-tag scan over assistant text (run.py lines
654-662).  The source first tests the disjunction of the three markers and
then picks the recorded tool by an if/elif chain, which is equivalent to
this chain with an unchanged fall-through. -/
def scanAssistantText (st : StreamState) (t : String) : StreamState :=
  if strContains t "</ask>" = true then
    { st with lastToolCall := some "ask" }
  else if strContains t "</complete>" = true then
    { st with lastToolCall := some "complete" }
  else if strContains t "</web-browser-takeover>" = true then
    { st with lastToolCall := some "web-browser-takeover" }
  else st

/-- The assistant-chunk path (run.py lines 643-667): when the chunk is
assistant-typed, has a `content` key, and its text parses, the text is
appended to `full_response` and scanned for sentinel closing tags. -/
def applyAssistant (st : StreamState) (c : Chunk) : StreamState :=
  if c.ctype = "assistant" ∧ c.hasContent = true then
    match c.contentText with
    | some t => scanAssistantText { st with fullResponse := st.fullResponse ++ t } t
    | none => st
  else st

/-- Processing of one chunk by the loop body (run.py lines 616-669).  A
status chunk with embedded status `error` sets `error_detected`, is
yielded, and `continue`s past the other branches; every other chunk runs
the metadata path, then the assistant-text path, then is yielded. -/
def processChunk (st : StreamState) (c : Chunk) : StreamState :=
  if c.ctype = "status" ∧ c.cstatus = some "error" then
    { st with errorDetected := true, forwarded := st.forwarded ++ [c] }
  else
    let st2 := applyAssistant (applyStatusMeta st c) c
    { st2 with forwarded := st2.forwarded ++ [c] }

/-- One turn's stream interpretation: fold the chunk sequence through
`processChunk` starting from the per-iteration initial state. -/
def processStream (chunks : List Chunk) : StreamState :=
  chunks.foldl processChunk initStream

/-- Membership of a tool name in the sentinel list of run.py line 678. -/
def sentinelName (s : String) : Bool :=
  decide (s = "ask" ∨ s = "complete" ∨ s = "web-browser-takeover")

/-- `last_tool_call in ['ask', 'complete', 'web-browser-takeover']` where
`last_tool_call` may be `None` (run.py line 678). -/
def isSentinelTool : Option String → Bool
  | some s => sentinelName s
  | none => false

/-- The termination verdict the loop applies after a turn's stream is
drained (run.py line 678): `agent_should_terminate or last_tool_call in
['ask', 'complete', 'web-browser-takeover']`. -/
def terminationDetected (st : StreamState) : Bool :=
  st.agentShouldTerminate || isSentinelTool st.lastToolCall

/-- A chunk that reaches the metadata path and carries the explicit
termination flag: status-typed, not the `continue`d error chunk, with a
truthy parsed `agent_should_terminate`. -/
def metaTerminates (c : Chunk) : Bool :=
  decide (c.ctype = "status" ∧ c.cstatus ≠ some "error" ∧ c.metaTerminate = true)

/-- Presence of at least one of the three sentinel closing markers in a
piece of assistant text (the disjunction of run.py line 654). -/
def containsSentinel (t : String) : Bool :=
  strContains t "</ask>" || strContains t "</complete>" ||
    strContains t "</web-browser-takeover>"

/-- Terminal disposition of a run.  `run.py` itself only breaks out of the
loop; modelled from the spec: the final status persisted by the caller is
`completed` for a natural or termination-signalled exit, `stopped` for a
billing denial, and `failed` for an error exit (spec sections 4.2 and 8). -/
inductive Outcome where
  | completed
  | stopped
  | failed
deriving DecidableEq

/-- The value returned by one `thread_manager.run_thread` invocation, as
the loop body distinguishes the cases (run.py lines 579-701): a chunk
stream consumed to the end, a non-streaming error dict (line 605), a value
that is neither a stream nor a dict (line 670), an exception raised by the
invocation itself (line 694), or an exception raised mid-stream after a
prefix of chunks was already processed and yielded (line 683). -/
inductive Response where
  | stream (chunks : List Chunk)
  | errorDict (msg : String)
  | notStream
  | runException (msg : String)
  | streamException (preChunks : List Chunk) (msg : String)
deriving DecidableEq

/-- The external inputs one iteration of the loop observes: the billing
check's verdict and message (run.py line 557), the type of the most
recently persisted thread message among assistant/tool/user (line 567,
`none` when the query returns no rows), and the completion engine's
response (line 579). -/
structure IterEnv where
  billingCanRun : Bool
  billingMessage : String
  latestMessageType : Option String
  response : Response
deriving DecidableEq

/-- Observable result of the run loop: the final `iteration_count`, the
number of `run_thread` (completion engine) invocations performed, the
number of billing-status admission checks performed, the number of
concurrency-cap (`check_agent_run_limit`) admission checks performed by
the loop, the terminal disposition, and the chunks yielded. -/
structure LoopResult where
  iterations : Nat
  invocations : Nat
  billingChecks : Nat
  concurrencyChecks : Nat
  outcome : Outcome
  emitted : List Chunk
deriving DecidableEq

/-- The status chunk yielded on a billing denial (run.py lines 559-564). -/
def billingStoppedChunk (m : String) : Chunk :=
  ⟨"status", some "stopped", false, none, none, false, none,
    some ("Billing limit reached: " ++ m)⟩

/-- The non-streaming error dict yielded as-is (run.py line 606); it has a
`status` key equal to `error` and no `type` key. -/
def errorDictChunk (m : String) : Chunk :=
  ⟨"", some "error", false, none, none, false, none, some m⟩

/-- The status chunk yielded when consuming the stream raises (run.py
lines 687-691). -/
def streamErrorChunk (m : String) : Chunk :=
  ⟨"status", some "error", false, none, none, false, none,
    some ("Error during response streaming: " ++ m)⟩

/-- The status chunk yielded when the `run_thread` call raises (run.py
lines 696-700). -/
def threadErrorChunk (m : String) : Chunk :=
  ⟨"status", some "error", false, none, none, false, none,
    some ("Error running thread: " ++ m)⟩

/-- The `while continue_execution and iteration_count < max_iterations`
loop of `AgentRunner.run` (run.py lines 554-704), with `fuel` the number
of iterations still admitted by the cap (`max_iterations -
iteration_count`), `i` the current `iteration_count`, `inv` the completion
engine invocations so far, `b` the billing checks so far, and `em` the
chunks yielded so far.  Each admitted iteration increments the counter,
runs the billing check, runs the resume-safety latest-message check, and
only then invokes the completion engine; the loop body contains no call to
`check_agent_run_limit`, so the concurrency-check count is zero. -/
def runLoopAux (env : Nat → IterEnv) : Nat → Nat → Nat → Nat → List Chunk → LoopResult
  | 0, i, inv, b, em => ⟨i, inv, b, 0, Outcome.completed, em⟩
  | fuel + 1, i, inv, b, em =>
    if (env (i + 1)).billingCanRun = false then
      ⟨i + 1, inv, b + 1, 0, Outcome.stopped,
        em ++ [billingStoppedChunk (env (i + 1)).billingMessage]⟩
    else if (env (i + 1)).latestMessageType = some "assistant" then
      ⟨i + 1, inv, b + 1, 0, Outcome.completed, em⟩
    else
      match (env (i + 1)).response with
      | Response.errorDict msg =>
        ⟨i + 1, inv + 1, b + 1, 0, Outcome.failed, em ++ [errorDictChunk msg]⟩
      | Response.notStream =>
        ⟨i + 1, inv + 1, b + 1, 0, Outcome.failed, em⟩
      | Response.runException msg =>
        ⟨i + 1, inv + 1, b + 1, 0, Outcome.failed, em ++ [threadErrorChunk msg]⟩
      | Response.streamException pre msg =>
        ⟨i + 1, inv + 1, b + 1, 0, Outcome.failed,
          em ++ (processStream pre).forwarded ++ [streamErrorChunk msg]⟩
      | Response.stream chunks =>
        if (processStream chunks).errorDetected = true then
          ⟨i + 1, inv + 1, b + 1, 0, Outcome.failed,
            em ++ (processStream chunks).forwarded⟩
        else if terminationDetected (processStream chunks) = true then
          ⟨i + 1, inv + 1, b + 1, 0, Outcome.completed,
            em ++ (processStream chunks).forwarded⟩
        else
          runLoopAux env fuel (i + 1) (inv + 1) (b + 1)
            (em ++ (processStream chunks).forwarded)

/-- The run loop started fresh: `iteration_count = 0`, no invocations, no
checks, nothing yielded (run.py lines 540-541). -/
def runLoop (env : Nat → IterEnv) (maxIterations : Nat) : LoopResult :=
  runLoopAux env maxIterations 0 0 0 []

/-- The `AgentConfig.max_iterations` default (run.py line 50). -/
def defaultMaxIterations : Nat := 100

/-- The global control channel name `agent_run:<id>:control`
(utils.py line 62). -/
def globalControlChannel (agentRunId : String) : String :=
  "agent_run:" ++ agentRunId ++ ":control"

/-- The per-instance control channel name `agent_run:<id>:control:<inst>`
(utils.py line 77). -/
def instanceControlChannel (agentRunId instanceId : String) : String :=
  "agent_run:" ++ agentRunId ++ ":control:" ++ instanceId

/-- The Redis response-buffer key `agent_run:<id>:responses`
(utils.py lines 13 and 46). -/
def responseListKey (agentRunId : String) : String :=
  "agent_run:" ++ agentRunId ++ ":responses"

/-- Final status computed by the stop protocol (utils.py line 44):
`"failed" if error_message else "stopped"`, where Python truthiness
treats `None` and the empty string as no message. -/
def finalStatusFor (errorMessage : Option String) : String :=
  match errorMessage with
  | none => "stopped"
  | some m => if m = "" then "stopped" else "failed"

/-- Python's `str.split(sep)` for a one-character separator, on character
lists: splitting an empty string yields one empty field, and empty fields
between adjacent separators are kept. -/
def splitOnChar (sep : Char) : List Char → List (List Char)
  | [] => [[]]
  | c :: rest =>
    if c = sep then [] :: splitOnChar sep rest
    else
      match splitOnChar sep rest with
      | [] => [[c]]
      | h :: t => (c :: h) :: t

/-- Parsing of a liveness key by the stop protocol (utils.py lines 73-76):
`parts = key.split(":")`, and only keys with exactly three parts yield an
instance id, `parts[1]`. -/
def keyInstanceId (key : String) : Option String :=
  let parts := (splitOnChar ':' key.data).map String.mk
  if parts.length = 3 then parts.get? 1 else none

/-- Observable effects of one `stop_agent_run` call: the computed final
status, whether the durable status write succeeded, the channels that
received the `STOP` token, and the Redis keys deleted. -/
structure StopEffects where
  finalStatus : String
  statusPersisted : Bool
  publishedChannels : List String
  deletedKeys : List String
deriving DecidableEq

/-- The stop protocol `stop_agent_run` (utils.py lines 41-91) with the
Redis operations succeeding.  `persistOk` is the outcome of
`update_agent_run_status`; that collaborator lives in
`run_agent_background` (outside the embedded sources) and is modelled from
the spec as returning a success flag whose failure is logged and does not
abort the remaining steps (spec section 4.4 step 3).  `instanceKeys` is
what `redis.keys("active_run:*:<id>")` returns; each well-formed key's
instance channel is published to, and `_cleanup_redis_response_list`
(utils.py lines 11-17) deletes the response buffer. -/
def stop_agent_run (agentRunId : String) (errorMessage : Option String)
    (persistOk : Bool) (instanceKeys : List String) : StopEffects :=
  { finalStatus := finalStatusFor errorMessage,
    statusPersisted := persistOk,
    publishedChannels :=
      globalControlChannel agentRunId ::
        instanceKeys.filterMap (fun k =>
          match keyInstanceId k with
          | some iid => some (instanceControlChannel agentRunId iid)
          | none => none),
    deletedKeys := [responseListKey agentRunId] }

/-- Result dictionary of `check_agent_run_limit` (utils.py lines 94-161). -/
structure RunLimitResult where
  can_start : Bool
  running_count : Nat
  running_thread_ids : List String
deriving DecidableEq

/-- The external world one `check_agent_run_limit` call observes: a truthy
cached result, a successful fresh read (the account's thread ids and the
thread ids of runs with status `running` started within the trailing 24
hours), or a raised exception anywhere in the cache or backing-store
access (the `except` branch of utils.py lines 154-161). -/
inductive LimitEnv where
  | cacheHit (r : RunLimitResult)
  | fresh (threadIds : List String) (runningThreadIds : List String)
  | readFailure
deriving DecidableEq

/-- The concurrency-cap check `check_agent_run_limit` (utils.py lines
94-161): a truthy cached result is returned as-is; with no threads the run
is allowed; otherwise the count of running runs in the window is compared
with `config.MAX_PARALLEL_AGENT_RUNS`; any read failure returns the
fail-open result allowing the run. -/
def check_agent_run_limit (maxParallel : Nat) : LimitEnv → RunLimitResult
  | LimitEnv.cacheHit r => r
  | LimitEnv.fresh threadIds runningThreadIds =>
    if threadIds.isEmpty then ⟨true, 0, []⟩
    else
      ⟨decide (runningThreadIds.length < maxParallel),
        runningThreadIds.length, runningThreadIds⟩
  | LimitEnv.readFailure => ⟨true, 0, []⟩

/-- `AgentRunner.get_max_tokens` (run.py lines 517-527): the max-output
token ceiling derived from the lowercased model name, first match wins. -/
def get_max_tokens (modelName : String) : Option Nat :=
  if strContains (lowerString modelName) "sonnet" = true then some 8192
  else if strContains (lowerString modelName) "gpt-4" = true then some 4096
  else if strContains (lowerString modelName) "gemini-2.5-pro" = true then some 64000
  else if strContains (lowerString modelName) "kimi-k2" = true then some 8192
  else none

/-- Environment for a run whose every iteration's stream is empty: billing
allows, the latest message is not assistant-typed, and the completion
engine returns an empty stream with no termination signal. -/
def envAllIterate : Nat → IterEnv :=
  fun _ => ⟨true, "", none, Response.stream []⟩

/-- Environment whose latest persisted thread message is assistant-typed
at every iteration start. -/
def envResumeAnswered : Nat → IterEnv :=
  fun _ => ⟨true, "", some "assistant", Response.notStream⟩

/-- A status chunk with embedded status `error`. -/
def errChunkWitness : Chunk :=
  ⟨"status", some "error", false, none, none, false, none, none⟩

/-- Environment whose first turn's stream yields one error-status chunk. -/
def envErrorStream : Nat → IterEnv :=
  fun _ => ⟨true, "", none, Response.stream [errChunkWitness]⟩

/-- An assistant chunk whose text carries a complete-tag closing sentinel
and no metadata termination flag. -/
def sentinelChunkWitness : Chunk :=
  ⟨"assistant", none, false, none, none, true,
    some "done <complete>done</complete>", none⟩

/-- Environment whose first turn's stream yields one sentinel-bearing
assistant chunk. -/
def envSentinelStream : Nat → IterEnv :=
  fun _ => ⟨true, "", none, Response.stream [sentinelChunkWitness]⟩

/-- An assistant chunk whose text carries both an ask-tag and a
complete-tag closing sentinel. -/
def multiSentinelChunk : Chunk :=
  ⟨"assistant", none, false, none, none, true,
    some "<ask>q</ask> and <complete>c</complete>", none⟩

/-- The metadata path leaves the forwarded-chunk log unchanged. -/
theorem applyStatusMeta_forwarded (st : StreamState) (c : Chunk) :
    (applyStatusMeta st c).forwarded = st.forwarded := by
  unfold applyStatusMeta
  split_ifs <;> rfl

/-- The metadata path leaves the error flag unchanged. -/
theorem applyStatusMeta_errorDetected (st : StreamState) (c : Chunk) :
    (applyStatusMeta st c).errorDetected = st.errorDetected := by
  unfold applyStatusMeta
  split_ifs <;> rfl

/-- The sentinel scan leaves the forwarded-chunk log unchanged. -/
theorem scanAssistantText_forwarded (st : StreamState) (t : String) :
    (scanAssistantText st t).forwarded = st.forwarded := by
  unfold scanAssistantText
  split_ifs <;> rfl

/-- The sentinel scan leaves the error flag unchanged. -/
theorem scanAssistantText_errorDetected (st : StreamState) (t : String) :
    (scanAssistantText st t).errorDetected = st.errorDetected := by
  unfold scanAssistantText
  split_ifs <;> rfl

/-- The assistant path leaves the forwarded-chunk log unchanged. -/
theorem applyAssistant_forwarded (st : StreamState) (c : Chunk) :
    (applyAssistant st c).forwarded = st.forwarded := by
  unfold applyAssistant
  split_ifs with h
  · cases hc : c.contentText <;> simp [scanAssistantText_forwarded]
  · rfl

/-- The assistant path leaves the error flag unchanged. -/
theorem applyAssistant_errorDetected (st : StreamState) (c : Chunk) :
    (applyAssistant st c).errorDetected = st.errorDetected := by
  unfold applyAssistant
  split_ifs with h
  · cases hc : c.contentText <;> simp [scanAssistantText_errorDetected]
  · rfl

/-- Every chunk is forwarded exactly once, in order. -/
theorem processChunk_forwarded (st : StreamState) (c : Chunk) :
    (processChunk st c).forwarded = st.forwarded ++ [c] := by
  simp only [processChunk]
  split_ifs with h
  · rfl
  · simp [applyAssistant_forwarded, applyStatusMeta_forwarded]

/-- The error flag is monotone across chunk processing. -/
theorem processChunk_errorDetected_mono (st : StreamState) (c : Chunk)
    (h : st.errorDetected = true) : (processChunk st c).errorDetected = true := by
  simp only [processChunk]
  split_ifs with hc
  · rfl
  · simp [applyAssistant_errorDetected, applyStatusMeta_errorDetected, h]

/-- An error-status chunk sets the error flag. -/
theorem processChunk_errorDetected_set (st : StreamState) (c : Chunk)
    (h1 : c.ctype = "status") (h2 : c.cstatus = some "error") :
    (processChunk st c).errorDetected = true := by
  simp only [processChunk]
  rw [if_pos ⟨h1, h2⟩]

/-- Folding a stream through the interpreter forwards exactly the input
chunks, in arrival order, after whatever was already forwarded. -/
theorem foldl_processChunk_forwarded (l : List Chunk) :
    ∀ st : StreamState, (l.foldl processChunk st).forwarded = st.forwarded ++ l := by
  induction l with
  | nil => intro st; simp
  | cons c rest ih =>
    intro st
    simp only [List.foldl_cons]
    rw [ih, processChunk_forwarded]
    simp

/-- The error flag is monotone across a whole stream. -/
theorem foldl_processChunk_error_mono (l : List Chunk) :
    ∀ st : StreamState, st.errorDetected = true →
      (l.foldl processChunk st).errorDetected = true := by
  induction l with
  | nil => intro st h; simpa using h
  | cons c rest ih =>
    intro st h
    simp only [List.foldl_cons]
    exact ih _ (processChunk_errorDetected_mono st c h)

/-- Any error-status chunk anywhere in the stream leaves the error flag
set once the stream is drained. -/
theorem foldl_processChunk_error_of_mem (ch : Chunk)
    (h1 : ch.ctype = "status") (h2 : ch.cstatus = some "error") :
    ∀ (l : List Chunk), ch ∈ l →
      ∀ st : StreamState, (l.foldl processChunk st).errorDetected = true := by
  intro l
  induction l with
  | nil => intro hm; cases hm
  | cons c rest ih =>
    intro hm st
    rcases List.mem_cons.mp hm with hceq | hmem
    · subst hceq
      simp only [List.foldl_cons]
      exact foldl_processChunk_error_mono rest _ (processChunk_errorDetected_set st ch h1 h2)
    · simp only [List.foldl_cons]
      exact ih hmem _

/-- A chunk that does not carry the metadata termination flag cannot reach
the branch of `applyStatusMeta` that rewrites the recorded tool. -/
theorem applyStatusMeta_eq_self (st : StreamState) (c : Chunk)
    (h : metaTerminates c = false)
    (hne : ¬(c.ctype = "status" ∧ c.cstatus = some "error")) :
    applyStatusMeta st c = st := by
  unfold applyStatusMeta
  split_ifs with h1 h2
  · exfalso
    have hcs : c.cstatus ≠ some "error" := fun hc => hne ⟨h1, hc⟩
    have ht : metaTerminates c = true := by
      unfold metaTerminates
      exact decide_eq_true ⟨h1, hcs, h2⟩
    rw [ht] at h
    exact Bool.noConfusion h
  · rfl
  · rfl

/-- The sentinel scan preserves a sentinel-valued recorded tool. -/
theorem scanAssistantText_sentinel_preserve (st : StreamState) (t : String)
    (h : isSentinelTool st.lastToolCall = true) :
    isSentinelTool (scanAssistantText st t).lastToolCall = true := by
  unfold scanAssistantText
  split_ifs with h1 h2 h3
  · rfl
  · rfl
  · rfl
  · exact h

/-- When some sentinel closing marker is present in the text, the scan
records a sentinel tool. -/
theorem scanAssistantText_sentinel_set (st : StreamState) (t : String)
    (h : containsSentinel t = true) :
    isSentinelTool (scanAssistantText st t).lastToolCall = true := by
  unfold scanAssistantText
  split_ifs with h1 h2 h3
  · rfl
  · rfl
  · rfl
  · exfalso
    simp only [containsSentinel, Bool.or_eq_true] at h
    rcases h with (h | h) | h
    · exact h1 h
    · exact h2 h
    · exact h3 h

/-- Without a metadata termination flag, chunk processing preserves a
sentinel-valued recorded tool. -/
theorem processChunk_sentinel_preserve (st : StreamState) (c : Chunk)
    (hm : metaTerminates c = false)
    (h : isSentinelTool st.lastToolCall = true) :
    isSentinelTool (processChunk st c).lastToolCall = true := by
  simp only [processChunk]
  split_ifs with hc
  · exact h
  · show isSentinelTool (applyAssistant (applyStatusMeta st c) c).lastToolCall = true
    rw [applyStatusMeta_eq_self st c hm hc]
    unfold applyAssistant
    split_ifs with ha
    · cases hct : c.contentText with
      | none => exact h
      | some t => exact scanAssistantText_sentinel_preserve _ t h
    · exact h

/-- An assistant chunk whose parsed text carries a sentinel closing marker
leaves a sentinel tool recorded. -/
theorem processChunk_sentinel_set (st : StreamState) (c : Chunk) (t : String)
    (hty : c.ctype = "assistant") (hhc : c.hasContent = true)
    (hct : c.contentText = some t) (hs : containsSentinel t = true) :
    isSentinelTool (processChunk st c).lastToolCall = true := by
  simp only [processChunk]
  rw [if_neg (fun h => by rw [hty] at h; exact absurd h.1 (by decide))]
  show isSentinelTool (applyAssistant (applyStatusMeta st c) c).lastToolCall = true
  have hsm : applyStatusMeta st c = st := by
    unfold applyStatusMeta
    rw [if_neg (by rw [hty]; decide)]
  rw [hsm]
  unfold applyAssistant
  rw [if_pos ⟨hty, hhc⟩, hct]
  exact scanAssistantText_sentinel_set _ t hs

/-- Without metadata termination flags, a drained stream preserves a
sentinel-valued recorded tool. -/
theorem foldl_processChunk_sentinel_preserve :
    ∀ (l : List Chunk), (∀ c ∈ l, metaTerminates c = false) →
      ∀ st : StreamState, isSentinelTool st.lastToolCall = true →
        isSentinelTool (l.foldl processChunk st).lastToolCall = true := by
  intro l
  induction l with
  | nil => intro _ st h; simpa using h
  | cons c rest ih =>
    intro hall st h
    simp only [List.foldl_cons]
    exact ih (fun x hx => hall x (List.mem_cons_of_mem _ hx)) _
      (processChunk_sentinel_preserve st c (hall c (List.mem_cons_self _ _)) h)

/-- When the stream carries a sentinel-bearing assistant chunk and no
chunk carries the metadata termination flag, the drained stream records a
sentinel tool. -/
theorem processStream_sentinel (chunks : List Chunk)
    (hmeta : ∀ c ∈ chunks, metaTerminates c = false)
    (ch : Chunk) (hm : ch ∈ chunks) (hty : ch.ctype = "assistant")
    (hhc : ch.hasContent = true) (t : String) (hct : ch.contentText = some t)
    (hs : containsSentinel t = true) :
    isSentinelTool (processStream chunks).lastToolCall = true := by
  obtain ⟨l1, l2, rfl⟩ := List.append_of_mem hm
  unfold processStream
  rw [List.foldl_append]
  simp only [List.foldl_cons]
  exact foldl_processChunk_sentinel_preserve l2
    (fun x hx => hmeta x (by simp [hx])) _
    (processChunk_sentinel_set _ ch t hty hhc hct hs)

/-- Each admitted iteration performs at most one completion-engine
invocation, so the invocation count is bounded by the remaining fuel. -/
theorem runLoopAux_invocations_le (env : Nat → IterEnv) :
    ∀ (fuel i inv b : Nat) (em : List Chunk),
      (runLoopAux env fuel i inv b em).invocations ≤ inv + fuel := by
  intro fuel
  induction fuel with
  | zero =>
    intro i inv b em
    simp [runLoopAux]
  | succ f ih =>
    intro i inv b em
    simp only [runLoopAux]
    split_ifs with h1 h2
    · dsimp only
      omega
    · dsimp only
      omega
    · cases hr : (env (i + 1)).response with
      | stream chunks =>
        dsimp only
        split_ifs with h3 h4
        · dsimp only
          omega
        · dsimp only
          omega
        · have := ih (i + 1) (inv + 1) (b + 1) (em ++ (processStream chunks).forwarded)
          omega
      | errorDict msg =>
        dsimp only
        omega
      | notStream =>
        dsimp only
        omega
      | runException msg =>
        dsimp only
        omega
      | streamException pre msg =>
        dsimp only
        omega

/-- The loop body contains no call to the concurrency-cap check. -/
theorem runLoopAux_concurrency_zero (env : Nat → IterEnv) :
    ∀ (fuel i inv b : Nat) (em : List Chunk),
      (runLoopAux env fuel i inv b em).concurrencyChecks = 0 := by
  intro fuel
  induction fuel with
  | zero =>
    intro i inv b em
    rfl
  | succ f ih =>
    intro i inv b em
    simp only [runLoopAux]
    split_ifs with h1 h2
    · rfl
    · rfl
    · cases hr : (env (i + 1)).response with
      | stream chunks =>
        dsimp only
        split_ifs with h3 h4
        · rfl
        · rfl
        · exact ih (i + 1) (inv + 1) (b + 1) (em ++ (processStream chunks).forwarded)
      | errorDict msg => rfl
      | notStream => rfl
      | runException msg => rfl
      | streamException pre msg => rfl

/-- Every admitted iteration increments the iteration counter and the
billing-check counter together. -/
theorem runLoopAux_billing_iterations (env : Nat → IterEnv) :
    ∀ (fuel i inv b : Nat) (em : List Chunk),
      (runLoopAux env fuel i inv b em).billingChecks + i =
        (runLoopAux env fuel i inv b em).iterations + b := by
  intro fuel
  induction fuel with
  | zero =>
    intro i inv b em
    dsimp only [runLoopAux]
    omega
  | succ f ih =>
    intro i inv b em
    simp only [runLoopAux]
    split_ifs with h1 h2
    · dsimp only
      omega
    · dsimp only
      omega
    · cases hr : (env (i + 1)).response with
      | stream chunks =>
        dsimp only
        split_ifs with h3 h4
        · dsimp only
          omega
        · dsimp only
          omega
        · have := ih (i + 1) (inv + 1) (b + 1) (em ++ (processStream chunks).forwarded)
          omega
      | errorDict msg =>
        dsimp only
        omega
      | notStream =>
        dsimp only
        omega
      | runException msg =>
        dsimp only
        omega
      | streamException pre msg =>
        dsimp only
        omega

/-- C1: for every run configured with `maxIterations = N` (default 100),
the run loop invokes the completion engine at most N times, whatever the
environment does — in particular even when every invocation returns an
immediately-drained stream with no termination signal and no error. -/
theorem max_iterations_bounds_invocations (env : Nat → IterEnv) (n : Nat) :
    (runLoop env n).invocations ≤ n ∧ defaultMaxIterations = 100 := by
  constructor
  · have h := runLoopAux_invocations_le env n 0 0 0 []
    simpa [runLoop] using h
  · rfl

/-- C4: when the billing check admits the iteration and the most recently
persisted thread message at iteration start is assistant-typed, the loop
returns at once with the invocation count unchanged (zero further
completion-engine invocations) and the run ends Completed. -/
theorem assistant_resume_guard_stops_run (env : Nat → IterEnv)
    (fuel i inv b : Nat) (em : List Chunk)
    (hbill : (env (i + 1)).billingCanRun = true)
    (hmsg : (env (i + 1)).latestMessageType = some "assistant") :
    runLoopAux env (fuel + 1) i inv b em =
      ⟨i + 1, inv, b + 1, 0, Outcome.completed, em⟩ := by
  simp [runLoopAux, hbill, hmsg]

/-- Witness for C4: a concrete run whose first iteration sees an
assistant-typed latest message performs zero completion-engine invocations
and ends Completed. -/
theorem assistant_resume_guard_stops_run_witness :
    runLoopAux envResumeAnswered 3 0 0 0 [] =
      ⟨1, 0, 1, 0, Outcome.completed, []⟩ :=
  assistant_resume_guard_stops_run envResumeAnswered 2 0 0 0 [] rfl rfl

/-- C6 counterexample: a run that performs two full iterations (two
completion-engine invocations) invokes the concurrency-cap check zero
times, so the claim that both admission checks run before every iteration
is false of the code — the loop body only re-runs the billing check. -/
theorem concurrency_not_checked_each_iteration_cex :
    (runLoop envAllIterate 2).iterations = 2 ∧
    (runLoop envAllIterate 2).invocations = 2 ∧
    (runLoop envAllIterate 2).concurrencyChecks = 0 := by
  refine ⟨rfl, rfl, rfl⟩

/-- C6 amended: the billing-status check is invoked before every iteration
of the run loop (one billing check per iteration performed), while the
concurrency-cap check is never invoked by the run loop. -/
theorem billing_each_iteration_concurrency_never (env : Nat → IterEnv) (n : Nat) :
    (runLoop env n).billingChecks = (runLoop env n).iterations ∧
    (runLoop env n).concurrencyChecks = 0 := by
  constructor
  · have h := runLoopAux_billing_iterations env n 0 0 0 []
    simpa [runLoop] using h
  · have h := runLoopAux_concurrency_zero env n 0 0 0 []
    simpa [runLoop] using h

/-- C7: a read failure during the concurrency-cap check fails open — the
check returns the result permitting the run (`can_start` true) instead of
denying it or propagating the error. -/
theorem run_limit_read_failure_fails_open (maxParallel : Nat) :
    check_agent_run_limit maxParallel LimitEnv.readFailure = ⟨true, 0, []⟩ ∧
    (check_agent_run_limit maxParallel LimitEnv.readFailure).can_start = true :=
  ⟨rfl, rfl⟩

/-- C3: when an admitted iteration's stream yields an assistant chunk
whose text contains a sentinel closing marker and no chunk carries the
metadata termination flag, the loop's termination verdict is true, the
recorded last tool is one of the sentinels, and the loop ends after that
iteration with no further completion-engine invocation. -/
theorem sentinel_text_terminates_iteration (env : Nat → IterEnv)
    (fuel i inv b : Nat) (em : List Chunk) (chunks : List Chunk)
    (ch : Chunk) (t : String)
    (hbill : (env (i + 1)).billingCanRun = true)
    (hmsg : (env (i + 1)).latestMessageType ≠ some "assistant")
    (hresp : (env (i + 1)).response = Response.stream chunks)
    (hmeta : ∀ c ∈ chunks, metaTerminates c = false)
    (hm : ch ∈ chunks) (hty : ch.ctype = "assistant")
    (hhc : ch.hasContent = true) (hct : ch.contentText = some t)
    (hs : containsSentinel t = true) :
    terminationDetected (processStream chunks) = true ∧
    isSentinelTool (processStream chunks).lastToolCall = true ∧
    (runLoopAux env (fuel + 1) i inv b em).iterations = i + 1 ∧
    (runLoopAux env (fuel + 1) i inv b em).invocations = inv + 1 := by
  have hsent : isSentinelTool (processStream chunks).lastToolCall = true :=
    processStream_sentinel chunks hmeta ch hm hty hhc t hct hs
  have hterm : terminationDetected (processStream chunks) = true := by
    simp [terminationDetected, hsent]
  refine ⟨hterm, hsent, ?_⟩
  by_cases herr : (processStream chunks).errorDetected = true
  · constructor <;> simp [runLoopAux, hbill, hmsg, hresp, herr]
  · constructor <;> simp [runLoopAux, hbill, hmsg, hresp, herr, hterm]

/-- Witness for C3: a concrete first iteration whose stream is a single
assistant chunk ending in a complete-tag closing marker terminates the
run after exactly one completion-engine invocation. -/
theorem sentinel_text_terminates_iteration_witness :
    terminationDetected (processStream [sentinelChunkWitness]) = true ∧
    isSentinelTool (processStream [sentinelChunkWitness]).lastToolCall = true ∧
    (runLoopAux envSentinelStream 5 0 0 0 []).iterations = 1 ∧
    (runLoopAux envSentinelStream 5 0 0 0 []).invocations = 1 :=
  sentinel_text_terminates_iteration envSentinelStream 4 0 0 0 []
    [sentinelChunkWitness] sentinelChunkWitness "done <complete>done</complete>"
    rfl (by decide) rfl (by decide) (List.mem_singleton.mpr rfl) rfl rfl rfl
    (by decide)

/-- C5: an admitted iteration whose stream contains a status chunk with
embedded status error ends with the error flag set, forwards every chunk
of the stream (the error chunk included) to the consumer, and the loop
returns after that iteration — no subsequent iteration begins. -/
theorem error_status_chunk_forwarded_and_halts (env : Nat → IterEnv)
    (fuel i inv b : Nat) (em : List Chunk) (chunks : List Chunk) (ch : Chunk)
    (hbill : (env (i + 1)).billingCanRun = true)
    (hmsg : (env (i + 1)).latestMessageType ≠ some "assistant")
    (hresp : (env (i + 1)).response = Response.stream chunks)
    (hm : ch ∈ chunks) (hty : ch.ctype = "status")
    (hst : ch.cstatus = some "error") :
    (processStream chunks).errorDetected = true ∧
    (processStream chunks).forwarded = chunks ∧
    runLoopAux env (fuel + 1) i inv b em =
      ⟨i + 1, inv + 1, b + 1, 0, Outcome.failed, em ++ chunks⟩ := by
  have herr : (processStream chunks).errorDetected = true :=
    foldl_processChunk_error_of_mem ch hty hst chunks hm initStream
  have hfwd : (processStream chunks).forwarded = chunks := by
    have h := foldl_processChunk_forwarded chunks initStream
    simpa [processStream, initStream] using h
  refine ⟨herr, hfwd, ?_⟩
  simp [runLoopAux, hbill, hmsg, hresp, herr, hfwd]

/-- Witness for C5: a concrete first iteration whose stream is a single
error-status chunk forwards that chunk and fails the run with no second
iteration. -/
theorem error_status_chunk_forwarded_and_halts_witness :
    (processStream [errChunkWitness]).errorDetected = true ∧
    (processStream [errChunkWitness]).forwarded = [errChunkWitness] ∧
    runLoopAux envErrorStream 5 0 0 0 [] =
      ⟨1, 1, 1, 0, Outcome.failed, [errChunkWitness]⟩ :=
  error_status_chunk_forwarded_and_halts envErrorStream 4 0 0 0 []
    [errChunkWitness] errChunkWitness rfl (by decide) rfl
    (List.mem_singleton.mpr rfl) rfl rfl

/-- C2: every `stop_agent_run` call deletes the accumulated output buffer
for the run and publishes the STOP token on the global control channel and
on each well-formed active instance key's scoped channel, for any outcome
of the durable status write — in particular when it fails. -/
theorem stop_run_cleanup_despite_persist_failure (agentRunId : String)
    (errorMessage : Option String) (persistOk : Bool) (instanceKeys : List String) :
    responseListKey agentRunId ∈
      (stop_agent_run agentRunId errorMessage persistOk instanceKeys).deletedKeys ∧
    globalControlChannel agentRunId ∈
      (stop_agent_run agentRunId errorMessage persistOk instanceKeys).publishedChannels ∧
    ∀ k ∈ instanceKeys, ∀ iid, keyInstanceId k = some iid →
      instanceControlChannel agentRunId iid ∈
        (stop_agent_run agentRunId errorMessage persistOk instanceKeys).publishedChannels := by
  refine ⟨?_, ?_, ?_⟩
  · simp [stop_agent_run]
  · simp [stop_agent_run]
  · intro k hk iid hiid
    simp only [stop_agent_run]
    apply List.mem_cons_of_mem
    apply List.mem_filterMap.mpr
    exact ⟨k, hk, by rw [hiid]⟩

/-- Witness for C2: a concrete stop whose durable status write fails still
deletes the buffer and publishes STOP on the global channel and on the one
active instance's scoped channel. -/
theorem stop_run_cleanup_despite_persist_failure_witness :
    responseListKey "run1" ∈
      (stop_agent_run "run1" none false ["active_run:inst1:run1"]).deletedKeys ∧
    globalControlChannel "run1" ∈
      (stop_agent_run "run1" none false ["active_run:inst1:run1"]).publishedChannels ∧
    instanceControlChannel "run1" "inst1" ∈
      (stop_agent_run "run1" none false ["active_run:inst1:run1"]).publishedChannels := by
  have h := stop_run_cleanup_despite_persist_failure "run1" none false
    ["active_run:inst1:run1"]
  exact ⟨h.1, h.2.1,
    h.2.2 "active_run:inst1:run1" (List.mem_singleton.mpr rfl) "inst1" (by decide)⟩

/-- C8: the stop protocol's computed final status is `failed` exactly when
an error message is supplied (under Python truthiness, `None` and the
empty string supply no message), and `stopped` in every other case. -/
theorem stop_final_status_failed_iff_error (errorMessage : Option String) :
    (finalStatusFor errorMessage = "failed" ↔
      errorMessage ≠ none ∧ errorMessage ≠ some "") ∧
    (finalStatusFor errorMessage ≠ "failed" → finalStatusFor errorMessage = "stopped") := by
  cases errorMessage with
  | none => exact ⟨by decide, fun _ => rfl⟩
  | some m =>
    by_cases hm : m = ""
    · subst hm
      exact ⟨by decide, fun _ => rfl⟩
    · have h1 : finalStatusFor (some m) = "failed" := by
        simp [finalStatusFor, hm]
      constructor
      · rw [h1]
        constructor
        · intro _
          exact ⟨fun h => Option.noConfusion h, fun h => hm (Option.some.inj h)⟩
        · intro _
          rfl
      · intro hne
        exact absurd h1 hne

/-- Witness for C8: a nonempty error message yields status failed; no
error message yields status stopped. -/
theorem stop_final_status_failed_iff_error_witness :
    finalStatusFor (some "boom") = "failed" ∧ finalStatusFor none = "stopped" :=
  ⟨(stop_final_status_failed_iff_error (some "boom")).1.mpr (by decide),
   (stop_final_status_failed_iff_error none).2 (by decide)⟩

/-- C9: the max-output-token ceiling is 8192 for sonnet-tier names, 4096
for the gpt-4 family, 64000 for gemini-2.5-pro, 8192 for the kimi-k2
family, and unset for every other model name, with the source's
first-match-wins ordering on the lowercased name. -/
theorem max_tokens_by_model_tier (modelName : String) :
    (strContains (lowerString modelName) "sonnet" = true →
      get_max_tokens modelName = some 8192) ∧
    (strContains (lowerString modelName) "sonnet" = false →
      strContains (lowerString modelName) "gpt-4" = true →
      get_max_tokens modelName = some 4096) ∧
    (strContains (lowerString modelName) "sonnet" = false →
      strContains (lowerString modelName) "gpt-4" = false →
      strContains (lowerString modelName) "gemini-2.5-pro" = true →
      get_max_tokens modelName = some 64000) ∧
    (strContains (lowerString modelName) "sonnet" = false →
      strContains (lowerString modelName) "gpt-4" = false →
      strContains (lowerString modelName) "gemini-2.5-pro" = false →
      strContains (lowerString modelName) "kimi-k2" = true →
      get_max_tokens modelName = some 8192) ∧
    (strContains (lowerString modelName) "sonnet" = false →
      strContains (lowerString modelName) "gpt-4" = false →
      strContains (lowerString modelName) "gemini-2.5-pro" = false →
      strContains (lowerString modelName) "kimi-k2" = false →
      get_max_tokens modelName = none) := by
  refine ⟨?_, ?_, ?_, ?_, ?_⟩
  · intro h1
    simp [get_max_tokens, h1]
  · intro h1 h2
    simp [get_max_tokens, h1, h2]
  · intro h1 h2 h3
    simp [get_max_tokens, h1, h2, h3]
  · intro h1 h2 h3 h4
    simp [get_max_tokens, h1, h2, h3, h4]
  · intro h1 h2 h3 h4
    simp [get_max_tokens, h1, h2, h3, h4]

/-- Witness for C9: each tier's ceiling at a concrete model name, and an
unrecognized name yields no ceiling. -/
theorem max_tokens_by_model_tier_witness :
    get_max_tokens "anthropic/claude-Sonnet-4" = some 8192 ∧
    get_max_tokens "openai/gpt-4o" = some 4096 ∧
    get_max_tokens "gemini/gemini-2.5-pro" = some 64000 ∧
    get_max_tokens "moonshotai/kimi-k2" = some 8192 ∧
    get_max_tokens "openai/gpt-5-mini" = none :=
  ⟨(max_tokens_by_model_tier "anthropic/claude-Sonnet-4").1 (by decide),
   (max_tokens_by_model_tier "openai/gpt-4o").2.1 (by decide) (by decide),
   (max_tokens_by_model_tier "gemini/gemini-2.5-pro").2.2.1 (by decide)
     (by decide) (by decide),
   (max_tokens_by_model_tier "moonshotai/kimi-k2").2.2.2.1 (by decide)
     (by decide) (by decide) (by decide),
   (max_tokens_by_model_tier "openai/gpt-5-mini").2.2.2.2 (by decide)
     (by decide) (by decide) (by decide)⟩

/-- The assistant path of chunk processing reduces to the sentinel scan of
the parsed text. -/
theorem processChunk_assistant_text (st : StreamState) (c : Chunk) (t : String)
    (hty : c.ctype = "assistant") (hhc : c.hasContent = true)
    (hct : c.contentText = some t) :
    (processChunk st c).lastToolCall =
      (scanAssistantText { st with fullResponse := st.fullResponse ++ t } t).lastToolCall := by
  simp only [processChunk]
  rw [if_neg (fun h => by rw [hty] at h; exact absurd h.1 (by decide))]
  show (applyAssistant (applyStatusMeta st c) c).lastToolCall = _
  have hsm : applyStatusMeta st c = st := by
    unfold applyStatusMeta
    rw [if_neg (by rw [hty]; decide)]
  rw [hsm]
  unfold applyAssistant
  rw [if_pos ⟨hty, hhc⟩, hct]

/-- The scan records ask when the ask marker is present. -/
theorem scanAssistantText_ask (st : StreamState) (t : String)
    (h : strContains t "</ask>" = true) :
    (scanAssistantText st t).lastToolCall = some "ask" := by
  unfold scanAssistantText
  rw [if_pos h]

/-- The scan records complete when the ask marker is absent and the
complete marker present. -/
theorem scanAssistantText_complete (st : StreamState) (t : String)
    (h1 : strContains t "</ask>" = false)
    (h2 : strContains t "</complete>" = true) :
    (scanAssistantText st t).lastToolCall = some "complete" := by
  unfold scanAssistantText
  rw [if_neg (by simp [h1]), if_pos h2]

/-- The scan records web-browser-takeover when only its marker fires. -/
theorem scanAssistantText_takeover (st : StreamState) (t : String)
    (h1 : strContains t "</ask>" = false)
    (h2 : strContains t "</complete>" = false)
    (h3 : strContains t "</web-browser-takeover>" = true) :
    (scanAssistantText st t).lastToolCall = some "web-browser-takeover" := by
  unfold scanAssistantText
  rw [if_neg (by simp [h1]), if_neg (by simp [h2]), if_pos h3]

/-- C10: when an assistant chunk's text contains several sentinel closing
markers, the recorded terminating tool follows the fixed precedence ask,
then complete, then web-browser-takeover. -/
theorem sentinel_precedence_ask_complete_takeover (st : StreamState)
    (c : Chunk) (t : String)
    (hty : c.ctype = "assistant") (hhc : c.hasContent = true)
    (hct : c.contentText = some t) :
    (strContains t "</ask>" = true →
      (processChunk st c).lastToolCall = some "ask") ∧
    (strContains t "</ask>" = false → strContains t "</complete>" = true →
      (processChunk st c).lastToolCall = some "complete") ∧
    (strContains t "</ask>" = false → strContains t "</complete>" = false →
      strContains t "</web-browser-takeover>" = true →
      (processChunk st c).lastToolCall = some "web-browser-takeover") := by
  refine ⟨?_, ?_, ?_⟩
  · intro h1
    rw [processChunk_assistant_text st c t hty hhc hct]
    exact scanAssistantText_ask _ t h1
  · intro h1 h2
    rw [processChunk_assistant_text st c t hty hhc hct]
    exact scanAssistantText_complete _ t h1 h2
  · intro h1 h2 h3
    rw [processChunk_assistant_text st c t hty hhc hct]
    exact scanAssistantText_takeover _ t h1 h2 h3

/-- Witness for C10: a chunk containing both the ask and the complete
closing markers records ask. -/
theorem sentinel_precedence_ask_complete_takeover_witness :
    (processChunk initStream multiSentinelChunk).lastToolCall = some "ask" :=
  (sentinel_precedence_ask_complete_takeover initStream multiSentinelChunk
    "<ask>q</ask> and <complete>c</complete>" rfl rfl rfl).1 (by decide)
